import Mathlib

/-
Verification of the fuego file-system router core: the pattern compiler
(directory segments to URL pattern and priority), the route tree
(priority-sorted route listing, middleware-chain lookup, error
translation at mount time), the dispatcher proxy stage, and the
observability response writer.

The Go sources available are the test suites (scanner_test.go,
routetree_test.go, app_test.go, response writer tests), the nexo error
package (errors.go) and the nexo response writer (responseWriter).  The
scanner, route tree and app implementations themselves are absent, so
those operations are modelled from the specification; every definition
modelled that way carries a doc comment saying so.
-/

namespace Fuego

/-- Compiled form of one directory segment, following the segment table
of the spec: a plain name is a literal, a single-bracket name such as
the form with x in brackets is a dynamic parameter, a bracketed name
whose inner content starts with three dots is a catch-all, the
double-bracket triple-dot form is an optional catch-all, and a
parenthesized name is a route group. -/
inductive Segment where
  | literal (name : String)
  | param (name : String)
  | catchAll (name : String)
  | optCatchAll (name : String)
  | group (name : String)
deriving DecidableEq, Repr

/-- Modelled from the spec: per-segment contribution to the static
weight of a pattern (plain names contribute, all others do not). -/
def staticContrib : Segment → Nat
  | Segment.literal _ => 1
  | _ => 0

/-- Modelled from the spec: per-segment contribution to the dynamic
weight of a pattern (single-bracket named parameters contribute). -/
def dynamicContrib : Segment → Nat
  | Segment.param _ => 1
  | _ => 0

/-- Modelled from the spec: per-segment contribution to the catch-all
weight of a pattern (catch-all and optional catch-all contribute). -/
def catchAllContrib : Segment → Nat
  | Segment.catchAll _ => 1
  | Segment.optCatchAll _ => 1
  | _ => 0

/-- Total static weight of a segment list. -/
def staticWeight (segs : List Segment) : Nat :=
  (segs.map staticContrib).sum

/-- Total dynamic weight of a segment list. -/
def dynamicWeight (segs : List Segment) : Nat :=
  (segs.map dynamicContrib).sum

/-- Total catch-all weight of a segment list. -/
def catchAllWeight (segs : List Segment) : Nat :=
  (segs.map catchAllContrib).sum

/-- Modelled from the spec: priority scoring of a compiled pattern
(scanner.go is absent from the sources; TestCalculatePriority in
scanner_test.go pins the tiers).  Catch-all weight positive gives tier
5, else dynamic weight positive gives tier 50, else tier 100. -/
def CalculatePriority (segs : List Segment) : Nat :=
  if 0 < catchAllWeight segs then 5
  else if 0 < dynamicWeight segs then 50
  else 100

/-- True on catch-all segments, optional or not. -/
def isCatchAllSeg : Segment → Bool
  | Segment.catchAll _ => true
  | Segment.optCatchAll _ => true
  | _ => false

/-- True on dynamic parameter segments. -/
def isParamSeg : Segment → Bool
  | Segment.param _ => true
  | _ => false

/-- True on route-group segments. -/
def isGroupSeg : Segment → Bool
  | Segment.group _ => true
  | _ => false

theorem catchAllContrib_eq_isCatchAll (s : Segment) :
    catchAllContrib s = if isCatchAllSeg s then 1 else 0 := by
  cases s <;> rfl

theorem dynamicContrib_eq_isParam (s : Segment) :
    dynamicContrib s = if isParamSeg s then 1 else 0 := by
  cases s <;> rfl

theorem catchAllWeight_pos_iff (segs : List Segment) :
    0 < catchAllWeight segs ↔ segs.any isCatchAllSeg = true := by
  induction segs with
  | nil => simp [catchAllWeight]
  | cons s rest ih =>
      simp only [catchAllWeight, List.map_cons, List.sum_cons, List.any_cons,
        Bool.or_eq_true] at *
      rw [catchAllContrib_eq_isCatchAll]
      by_cases h : isCatchAllSeg s = true
      · simp [h]
      · simp [h, ih]

theorem dynamicWeight_pos_iff (segs : List Segment) :
    0 < dynamicWeight segs ↔ segs.any isParamSeg = true := by
  induction segs with
  | nil => simp [dynamicWeight]
  | cons s rest ih =>
      simp only [dynamicWeight, List.map_cons, List.sum_cons, List.any_cons,
        Bool.or_eq_true] at *
      rw [dynamicContrib_eq_isParam]
      by_cases h : isParamSeg s = true
      · simp [h]
      · simp [h, ih]

/-- C1: for every compiled pattern the priority tier is determined
solely by the segment kinds: any catch-all segment (optional or not)
yields priority 5, otherwise at least one dynamic parameter segment
yields priority 50, otherwise (pure static, including the empty root
pattern) priority is 100. -/
theorem CalculatePriority_determined_by_segment_kinds (segs : List Segment) :
    CalculatePriority segs =
      if segs.any isCatchAllSeg then 5
      else if segs.any isParamSeg then 50
      else 100 := by
  unfold CalculatePriority
  by_cases hca : segs.any isCatchAllSeg = true
  · rw [if_pos ((catchAllWeight_pos_iff segs).mpr hca), if_pos hca]
  · rw [if_neg (fun hpos => hca ((catchAllWeight_pos_iff segs).mp hpos)),
      if_neg (show ¬segs.any isCatchAllSeg = true from hca)]
    by_cases hdy : segs.any isParamSeg = true
    · rw [if_pos ((dynamicWeight_pos_iff segs).mpr hdy), if_pos hdy]
    · rw [if_neg (fun hpos => hdy ((dynamicWeight_pos_iff segs).mp hpos)),
        if_neg (show ¬segs.any isParamSeg = true from hdy)]

/-- Modelled from the spec: rendering of compiled segments into the
parts of the canonical pattern string.  A literal renders as itself, a
dynamic parameter renders inside braces, a catch-all (optional or not)
renders this segment and everything after it as the single wildcard
marker, and a route group is dropped entirely. -/
def renderSegments : List Segment → List String
  | [] => []
  | Segment.literal n :: rest => n :: renderSegments rest
  | Segment.param n :: rest => ("\x7b" ++ n ++ "\x7d") :: renderSegments rest
  | Segment.catchAll _ :: _ => ["*"]
  | Segment.optCatchAll _ :: _ => ["*"]
  | Segment.group _ :: rest => renderSegments rest

/-- Modelled from the spec: pathToRoute maps the directory segments of
a route file to the canonical URL pattern (scanner.go is absent from
the sources; TestScanner_PathToRoute in scanner_test.go pins the
rendering).  An empty segment list is the root pattern. -/
def pathToRoute (segs : List Segment) : String :=
  match renderSegments segs with
  | [] => "/"
  | parts => String.join (parts.map (fun p => "/" ++ p))

@[simp] theorem isGroupSeg_literal (n : String) : isGroupSeg (Segment.literal n) = false := rfl

@[simp] theorem isGroupSeg_param (n : String) : isGroupSeg (Segment.param n) = false := rfl

@[simp] theorem isGroupSeg_catchAll (n : String) : isGroupSeg (Segment.catchAll n) = false := rfl

@[simp] theorem isGroupSeg_optCatchAll (n : String) :
    isGroupSeg (Segment.optCatchAll n) = false := rfl

@[simp] theorem isGroupSeg_group (n : String) : isGroupSeg (Segment.group n) = true := rfl

theorem renderSegments_drop_groups (segs : List Segment) :
    renderSegments (segs.filter (fun s => !isGroupSeg s)) = renderSegments segs := by
  induction segs with
  | nil => rfl
  | cons s rest ih =>
      cases s <;> simp [renderSegments, List.filter_cons, ih]

theorem weight_map_drop_groups (f : Segment → Nat) (hf : ∀ n, f (Segment.group n) = 0)
    (segs : List Segment) :
    ((segs.filter (fun s => !isGroupSeg s)).map f).sum = (segs.map f).sum := by
  induction segs with
  | nil => rfl
  | cons s rest ih =>
      cases s <;> simp [List.filter_cons, ih, hf]

/-- C5: route-group segments are dropped entirely from the compiled
pattern and contribute no pattern weight, at every nesting depth: the
compiled pattern, all three weights, and therefore the priority of any
segment list coincide with those of the segment list with all group
segments removed, so no compiled pattern ever carries a group segment. -/
theorem route_groups_dropped (segs : List Segment) :
    pathToRoute (segs.filter (fun s => !isGroupSeg s)) = pathToRoute segs ∧
    staticWeight (segs.filter (fun s => !isGroupSeg s)) = staticWeight segs ∧
    dynamicWeight (segs.filter (fun s => !isGroupSeg s)) = dynamicWeight segs ∧
    catchAllWeight (segs.filter (fun s => !isGroupSeg s)) = catchAllWeight segs ∧
    CalculatePriority (segs.filter (fun s => !isGroupSeg s)) = CalculatePriority segs := by
  have hs := weight_map_drop_groups staticContrib (fun _ => rfl) segs
  have hd := weight_map_drop_groups dynamicContrib (fun _ => rfl) segs
  have hc := weight_map_drop_groups catchAllContrib (fun _ => rfl) segs
  refine ⟨?_, hs, hd, hc, ?_⟩
  · unfold pathToRoute
    rw [renderSegments_drop_groups]
  · unfold CalculatePriority
    unfold dynamicWeight catchAllWeight
    rw [hd, hc]

/-- Modelled from the spec: matching of a compiled pattern against a
request path split into segments, returning the parameter bindings on
success.  A literal matches the same name, a dynamic parameter matches
any one segment, a catch-all matches one or more trailing segments
joined by the separator (everything after it is part of the wildcard),
an optional catch-all also matches the segment being entirely absent
and then binds the empty string, and a group is transparent. -/
def matchSegments : List Segment → List String → Option (List (String × String))
  | [], [] => some []
  | [], _ :: _ => none
  | Segment.group _ :: rest, path => matchSegments rest path
  | Segment.literal _ :: _, [] => none
  | Segment.literal n :: rest, p :: ps =>
      if p = n then matchSegments rest ps else none
  | Segment.param _ :: _, [] => none
  | Segment.param n :: rest, p :: ps =>
      (matchSegments rest ps).map (fun bs => (n, p) :: bs)
  | Segment.catchAll _ :: _, [] => none
  | Segment.catchAll n :: _, p :: ps =>
      some [(n, String.intercalate "/" (p :: ps))]
  | Segment.optCatchAll n :: _, ps =>
      some [(n, String.intercalate "/" ps)]

/-- Modelled from the spec: classification of one directory name into
its compiled segment, following the authoritative naming table.  The
double-bracket triple-dot form is an optional catch-all, the
single-bracket triple-dot form is a catch-all, a remaining bracketed
name is a dynamic parameter, a parenthesized name is a route group, and
everything else is a literal. -/
def parseSegment (s : String) : Segment :=
  let cs := s.data
  if cs.take 5 = ['[', '[', '.', '.', '.'] ∧ 7 ≤ cs.length ∧
      cs.drop (cs.length - 2) = [']', ']'] then
    Segment.optCatchAll (String.mk ((cs.drop 5).take (cs.length - 7)))
  else if cs.take 4 = ['[', '.', '.', '.'] ∧ 5 ≤ cs.length ∧
      cs.drop (cs.length - 1) = [']'] then
    Segment.catchAll (String.mk ((cs.drop 4).take (cs.length - 5)))
  else if cs.take 1 = ['['] ∧ 2 ≤ cs.length ∧ cs.drop (cs.length - 1) = [']'] then
    Segment.param (String.mk ((cs.drop 1).take (cs.length - 2)))
  else if cs.take 1 = ['('] ∧ 2 ≤ cs.length ∧ cs.drop (cs.length - 1) = [')'] then
    Segment.group (String.mk ((cs.drop 1).take (cs.length - 2)))
  else
    Segment.literal s

theorem parseSegment_optCatchAll_form (x : String) :
    parseSegment ("[[..." ++ x ++ "]]") = Segment.optCatchAll x := by
  unfold parseSegment
  have hdata : ("[[..." ++ x ++ "]]").data =
      ['[', '[', '.', '.', '.'] ++ x.data ++ [']', ']'] := by
    rw [String.data_append, String.data_append]
  rw [hdata]
  have hlen : (['[', '[', '.', '.', '.'] ++ x.data ++ [']', ']']).length =
      x.data.length + 7 := by simp
  have hcond : (['[', '[', '.', '.', '.'] ++ x.data ++ [']', ']']).take 5 =
      ['[', '[', '.', '.', '.'] := by
    rw [List.append_assoc]
    exact List.take_left ['[', '[', '.', '.', '.'] (x.data ++ [']', ']'])
  rw [if_pos]
  · congr 1
    rw [hlen]
    have h5 : (['[', '[', '.', '.', '.'] ++ x.data ++ [']', ']']).drop 5 =
        x.data ++ [']', ']'] := by
      rw [List.append_assoc]
      exact List.drop_left ['[', '[', '.', '.', '.'] (x.data ++ [']', ']'])
    rw [show x.data.length + 7 - 7 = x.data.length by omega, h5]
    rw [List.take_left x.data [']', ']']]
  · refine ⟨hcond, ?_, ?_⟩
    · rw [hlen]; omega
    · rw [hlen,
        show x.data.length + 7 - 2 = (['[', '[', '.', '.', '.'] ++ x.data).length by simp]
      exact List.drop_left (['[', '[', '.', '.', '.'] ++ x.data) [']', ']']

theorem parseSegment_catchAll_form (x : String) :
    parseSegment ("[..." ++ x ++ "]") = Segment.catchAll x := by
  unfold parseSegment
  have hdata : ("[..." ++ x ++ "]").data = ['[', '.', '.', '.'] ++ x.data ++ [']'] := by
    rw [String.data_append, String.data_append]
  rw [hdata]
  have hlen : (['[', '.', '.', '.'] ++ x.data ++ [']']).length = x.data.length + 5 := by
    simp
  have hne : ¬((['[', '.', '.', '.'] ++ x.data ++ [']']).take 5 = ['[', '[', '.', '.', '.'] ∧
      7 ≤ (['[', '.', '.', '.'] ++ x.data ++ [']']).length ∧
      (['[', '.', '.', '.'] ++ x.data ++ [']']).drop
        ((['[', '.', '.', '.'] ++ x.data ++ [']']).length - 2) = [']', ']']) := by
    rintro ⟨h, -, -⟩
    rw [List.append_assoc] at h
    simp only [List.cons_append, List.nil_append] at h
    simp at h
  rw [if_neg hne, if_pos]
  · congr 1
    rw [hlen]
    have h4 : (['[', '.', '.', '.'] ++ x.data ++ [']']).drop 4 = x.data ++ [']'] := by
      rw [List.append_assoc]
      exact List.drop_left ['[', '.', '.', '.'] (x.data ++ [']'])
    rw [show x.data.length + 5 - 5 = x.data.length by omega, h4]
    rw [List.take_left x.data [']']]
  · refine ⟨?_, ?_, ?_⟩
    · rw [List.append_assoc]
      exact List.take_left ['[', '.', '.', '.'] (x.data ++ [']'])
    · rw [hlen]; omega
    · rw [hlen,
        show x.data.length + 5 - 1 = (['[', '.', '.', '.'] ++ x.data).length by simp]
      exact List.drop_left (['[', '.', '.', '.'] ++ x.data) [']']

theorem renderSegments_optCatchAll_eq_catchAll (pre : List Segment) (x : String) :
    renderSegments (pre ++ [Segment.optCatchAll x]) =
      renderSegments (pre ++ [Segment.catchAll x]) := by
  induction pre with
  | nil => rfl
  | cons s rest ih => cases s <;> simp [renderSegments, ih]

/-- C4: a directory path whose last segment is the double-bracket
triple-dot optional catch-all form on a name x renders the very same
single-wildcard pattern as the single-bracket triple-dot required
catch-all form on x, and the compiled pattern also matches the path
with that segment entirely absent, binding x to the empty string at
the bare prefix. -/
theorem optional_catchAll_renders_and_matches_bare
    (pre : List Segment) (x : String) (names : List String) :
    pathToRoute (pre ++ [parseSegment ("[[..." ++ x ++ "]]")]) =
      pathToRoute (pre ++ [parseSegment ("[..." ++ x ++ "]")]) ∧
    matchSegments (names.map Segment.literal ++ [parseSegment ("[[..." ++ x ++ "]]")])
      names = some [(x, "")] := by
  rw [parseSegment_optCatchAll_form, parseSegment_catchAll_form]
  constructor
  · unfold pathToRoute
    rw [renderSegments_optCatchAll_eq_catchAll]
  · induction names with
    | nil => rfl
    | cons n ns ih => simpa [matchSegments] using ih

/-- One registered middleware entry of the route tree: the inheritance
path (the PathPrefix field of the Go struct, named pathPref here) plus
an opaque token standing for the wrapper function. -/
structure MiddlewareEntry where
  pathPref : String
  mw : Nat
deriving DecidableEq, Repr

/-- Modelled from the spec: a registered path is an ancestor of a
request path when it equals the path, or it is the root, or the path
starts with it followed by the separator. -/
def isAncestor (p path : String) : Bool :=
  p == path || p == "/" || path.startsWith (p ++ "/")

/-- Ordering of middleware entries from least specific (shortest
registered path) to most specific. -/
def mwLE (a b : MiddlewareEntry) : Prop :=
  a.pathPref.length ≤ b.pathPref.length

instance : DecidableRel mwLE := fun _ _ => Nat.decLe _ _

instance : IsTotal MiddlewareEntry mwLE := ⟨fun _ _ => Nat.le_total _ _⟩

instance : IsTrans MiddlewareEntry mwLE := ⟨fun _ _ _ => Nat.le_trans⟩

/-- Modelled from the spec: GetMiddlewareChain keeps exactly the
registered entries whose path is an ancestor of the request path,
ordered from least specific to most specific (routetree.go is absent
from the sources; TestRouteTree_GetMiddlewareChain_Inheritance in
routetree_test.go pins the behaviour). -/
def GetMiddlewareChain (entries : List MiddlewareEntry) (path : String) :
    List MiddlewareEntry :=
  List.insertionSort mwLE (entries.filter (fun e => isAncestor e.pathPref path))

/-- C2: for every set of registered middleware entries and every
request path, GetMiddlewareChain returns exactly the entries whose
registered path is an ancestor of the request path (equality, root, or
path continuing past the separator), ordered least specific first, so
that composing the list front-to-outermost runs the root-most
middleware first and the handler last. -/
theorem GetMiddlewareChain_ancestors_sorted
    (entries : List MiddlewareEntry) (path : String) :
    List.Perm (GetMiddlewareChain entries path)
      (entries.filter (fun e => isAncestor e.pathPref path)) ∧
    List.Pairwise mwLE (GetMiddlewareChain entries path) ∧
    ∀ e, e ∈ GetMiddlewareChain entries path ↔
      e ∈ entries ∧ isAncestor e.pathPref path = true := by
  refine ⟨List.perm_insertionSort mwLE _, List.sorted_insertionSort mwLE _, fun e => ?_⟩
  unfold GetMiddlewareChain
  rw [(List.perm_insertionSort mwLE _).mem_iff, List.mem_filter]

/-- One route of the route tree: the compiled pattern, the HTTP
method, and the priority tier (the Handler field of the Go struct is
an opaque function and plays no part in ordering). -/
structure Route where
  pattern : String
  method : String
  priority : Nat
deriving DecidableEq, Repr

/-- Ordering used by Routes: priority descending, ties by pattern
lexical order, then by method lexical order. -/
def routeLE (a b : Route) : Prop :=
  b.priority < a.priority ∨
    (a.priority = b.priority ∧
      (a.pattern < b.pattern ∨ (a.pattern = b.pattern ∧ a.method ≤ b.method)))

instance : DecidableRel routeLE := fun a b => by
  unfold routeLE
  infer_instance

instance : IsTotal Route routeLE where
  total a b := by
    unfold routeLE
    rcases Nat.lt_trichotomy a.priority b.priority with h | h | h
    · exact Or.inr (Or.inl h)
    · rcases lt_trichotomy a.pattern b.pattern with h2 | h2 | h2
      · exact Or.inl (Or.inr ⟨h, Or.inl h2⟩)
      · rcases le_total a.method b.method with h3 | h3
        · exact Or.inl (Or.inr ⟨h, Or.inr ⟨h2, h3⟩⟩)
        · exact Or.inr (Or.inr ⟨h.symm, Or.inr ⟨h2.symm, h3⟩⟩)
      · exact Or.inr (Or.inr ⟨h.symm, Or.inl h2⟩)
    · exact Or.inl (Or.inl h)

instance : IsTrans Route routeLE where
  trans a b c hab hbc := by
    unfold routeLE at *
    rcases hab with h1 | ⟨e1, h1⟩
    · rcases hbc with h2 | ⟨e2, h2⟩
      · exact Or.inl (Nat.lt_trans h2 h1)
      · exact Or.inl (by omega)
    · rcases hbc with h2 | ⟨e2, h2⟩
      · exact Or.inl (by omega)
      · refine Or.inr ⟨e1.trans e2, ?_⟩
        rcases h1 with h1 | ⟨ep1, h1⟩
        · rcases h2 with h2 | ⟨ep2, h2⟩
          · exact Or.inl (lt_trans h1 h2)
          · exact Or.inl (ep2 ▸ h1)
        · rcases h2 with h2 | ⟨ep2, h2⟩
          · exact Or.inl (ep1 ▸ h2)
          · exact Or.inr ⟨ep1.trans ep2, le_trans h1 h2⟩

/-- Modelled from the spec: Routes returns the added routes sorted
descending by priority with the deterministic tie-break (routetree.go
is absent from the sources; TestRouteTree_Routes_SortedByPriority in
routetree_test.go pins the priority ordering). -/
def Routes (rs : List Route) : List Route :=
  List.insertionSort routeLE rs

/-- C3: Routes returns every added route exactly once, sorted by
priority descending, and among routes of equal priority the order is
the deterministic tie-break: pattern lexical order first, then method
lexical order. -/
theorem Routes_sorted_by_priority_pattern_method (rs : List Route) :
    List.Perm (Routes rs) rs ∧
    List.Pairwise routeLE (Routes rs) ∧
    List.Pairwise (fun a b => b.priority ≤ a.priority) (Routes rs) := by
  refine ⟨List.perm_insertionSort routeLE rs, List.sorted_insertionSort routeLE rs, ?_⟩
  refine (List.sorted_insertionSort routeLE rs).imp ?_
  intro a b hab
  rcases hab with h | ⟨e, -⟩
  · exact Nat.le_of_lt h
  · exact Nat.le_of_eq e.symm

/-- Shallow shape of a Go type as the scanner sees it in a handler
signature: the pointer to the request context type, the error type, or
anything else. -/
inductive GoType where
  | ptrContext
  | errorType
  | other (name : String)
deriving DecidableEq, Repr

/-- Shallow shape of one top-level function declaration of a route
file: its name, its parameter types and its result types. -/
structure FuncDecl where
  name : String
  params : List GoType
  results : List GoType
deriving DecidableEq, Repr

/-- Modelled from the spec: the recognized capitalized HTTP verb names
and the methods they register.  An unexported name such as the
lowercase form of delete is simply not in this table. -/
def verbMethod (n : String) : Option String :=
  List.lookup n
    [("Get", "GET"), ("Post", "POST"), ("Put", "PUT"), ("Patch", "PATCH"),
      ("Delete", "DELETE"), ("Head", "HEAD"), ("Options", "OPTIONS")]

/-- Modelled from the spec: a conforming handler signature has exactly
one parameter, a pointer to the request context, and exactly one
result, an error. -/
def validSig (d : FuncDecl) : Bool :=
  match d.params, d.results with
  | [GoType.ptrContext], [GoType.errorType] => true
  | _, _ => false

/-- True when a declaration becomes a route: a recognized verb name
with a conforming signature. -/
def conformingDecl (d : FuncDecl) : Bool :=
  (verbMethod d.name).isSome && validSig d

/-- The route registered for a conforming declaration of a route file
whose directory compiled to the given segments. -/
def mkRoute (segs : List Segment) (d : FuncDecl) : Route :=
  ⟨pathToRoute segs, (verbMethod d.name).getD "", CalculatePriority segs⟩

/-- Modelled from the spec: the scanner walks the top-level
declarations of one structurally parsed route file, registering every
verb-named declaration with a conforming signature and skipping every
other declaration, never failing (scanner.go is absent from the
sources; TestScanner_Scan_SkipsInvalidSignatures in scanner_test.go
pins the behaviour). -/
def collectRoutes (segs : List Segment) : List FuncDecl → List Route
  | [] => []
  | d :: rest =>
      match verbMethod d.name with
      | none => collectRoutes segs rest
      | some m =>
          if validSig d then
            ⟨pathToRoute segs, m, CalculatePriority segs⟩ :: collectRoutes segs rest
          else
            collectRoutes segs rest

/-- Modelled from the spec: scanning one parsed route file is total
and returns the registered routes; a declaration shape problem is a
skip, never a scan error. -/
def scanRouteFile (segs : List Segment) (decls : List FuncDecl) :
    Except String (List Route) :=
  Except.ok (collectRoutes segs decls)

/-- C8: scanning a parsed route file never returns an error, and it
registers exactly the routes of the conforming declarations — every
verb-named declaration with a bad signature (wrong parameter type or
count, wrong result type) or an unrecognized or unexported name is
skipped while every conforming declaration of the same file is still
registered. -/
theorem scan_skips_invalid_signatures (segs : List Segment) (decls : List FuncDecl) :
    scanRouteFile segs decls =
      Except.ok ((decls.filter conformingDecl).map (mkRoute segs)) := by
  unfold scanRouteFile
  congr 1
  induction decls with
  | nil => rfl
  | cons d rest ih =>
      rcases hm : verbMethod d.name with _ | m
      · have hc : conformingDecl d = false := by simp [conformingDecl, hm]
        simp [collectRoutes, hm, List.filter_cons, hc, ih]
      · rcases hv : validSig d with _ | _
        · have hc : conformingDecl d = false := by simp [conformingDecl, hv]
          simp [collectRoutes, hm, hv, List.filter_cons, hc, ih]
        · have hc : conformingDecl d = true := by simp [conformingDecl, hm, hv]
          simp [collectRoutes, hm, hv, List.filter_cons, hc, ih, mkRoute]

end Fuego

namespace Nexo

/-- Shallow shape of a Go error value as the error package sees it
(errors.go): a structured HTTPError carries a status code, a message
and an optional wrapped cause; a plain error from errors.New carries
only text; wrapping with additional context keeps an inner error
reachable through Unwrap. -/
inductive GoError where
  | httpError (code : Nat) (message : String) (cause : Option GoError)
  | basic (msg : String)
  | wrap (msg : String) (inner : GoError)

/-- IsHTTPError from errors.go: walk the error as errors.As does,
returning the first structured HTTPError found along the unwrap chain
(an HTTPError matches immediately; a wrapping error is unwrapped; a
plain error has no HTTPError). -/
def IsHTTPError : GoError → Option (Nat × String)
  | GoError.httpError c m _ => some (c, m)
  | GoError.basic _ => none
  | GoError.wrap _ inner => IsHTTPError inner

/-- Outcome of the error translation of a mounted handler: the status
and body sent to the client, plus the concrete error retained for
logging only (none when the structured message was already sent). -/
structure HandledResponse where
  status : Nat
  body : String
  logged : Option GoError

/-- Modelled from the spec: the error translation performed by the
composed handler that Mount registers (routetree.go is absent from the
sources; TestRouteTree_HandleError in routetree_test.go pins the two
cases).  A structured HTTP error propagates its status and message; any
other error maps to a fixed 500 with a generic body while the concrete
error is retained for logging. -/
def handleError (err : GoError) : HandledResponse :=
  match IsHTTPError err with
  | some (c, m) => ⟨c, m, none⟩
  | none => ⟨500, "Internal Server Error", some err⟩

/-- C6: for every error returned by a mounted composed handler, if the
error is or wraps a structured HTTP error then the response carries
that structured status and message verbatim, and any other error
produces the fixed 500 response with the generic body while the
concrete error is retained for logging only. -/
theorem mount_error_translation (err : GoError) :
    (∀ c m, IsHTTPError err = some (c, m) →
      handleError err = ⟨c, m, none⟩) ∧
    (IsHTTPError err = none →
      handleError err = ⟨500, "Internal Server Error", some err⟩) := by
  constructor
  · intro c m h
    unfold handleError
    rw [h]
  · intro h
    unfold handleError
    rw [h]

/-- Witness for C6 at concrete errors: a wrapped structured 400
propagates its status and message, and a plain error maps to the fixed
500 with the error kept for the log. -/
theorem mount_error_translation_witness :
    handleError (GoError.wrap "ctx" (GoError.httpError 400 "bad request" none)) =
      ⟨400, "bad request", none⟩ ∧
    handleError (GoError.basic "not found") =
      ⟨500, "Internal Server Error", some (GoError.basic "not found")⟩ :=
  ⟨(mount_error_translation
      (GoError.wrap "ctx" (GoError.httpError 400 "bad request" none))).1
      400 "bad request" rfl,
    (mount_error_translation (GoError.basic "not found")).2 rfl⟩

/-- Outcome of a successful proxy (interceptor) invocation, following
the spec: continue, rewrite to a new routing path, redirect, or an
explicit short-circuit response. -/
inductive ProxyOutcome where
  | cont
  | rewrite (newPath : String)
  | redirect (location : String) (status : Nat)
  | response (status : Nat) (body : String)
deriving DecidableEq, Repr

/-- What the proxy function returned: a result, or a non-nil Go
error. -/
inductive ProxyReturn where
  | ok (r : ProxyOutcome)
  | err (e : GoError)

/-- Observable outcome of dispatching one request: the response status
and whether the middleware chain and the route handler ran. -/
structure DispatchTrace where
  status : Nat
  middlewareRan : Bool
  handlerRan : Bool
deriving DecidableEq, Repr

/-- Modelled from the spec: the fixed per-request stage order of the
dispatcher (app.go is absent from the sources;
TestApp_ServeHTTP_ProxyError in app_test.go pins the error case).  The
first argument is the proxy invocation result when a proxy is present
and its matcher accepted the path, none otherwise.  A proxy error is
always a fixed 500 with nothing further run; redirect and response
short-circuit before any middleware; continue and rewrite fall through
to the middleware chain and handler, whose handler result is
translated by handleError. -/
def dispatch (proxyRet : Option ProxyReturn) (handlerRet : Option GoError) :
    DispatchTrace :=
  match proxyRet with
  | some (ProxyReturn.err _) => ⟨500, false, false⟩
  | some (ProxyReturn.ok (ProxyOutcome.redirect _ st)) => ⟨st, false, false⟩
  | some (ProxyReturn.ok (ProxyOutcome.response st _)) => ⟨st, false, false⟩
  | _ =>
      match handlerRet with
      | none => ⟨200, true, true⟩
      | some e => ⟨(handleError e).status, true, true⟩

/-- C7: whenever the proxy function returns a non-nil error — even a
structured HTTP error carrying a different status — the dispatcher
responds with the fixed 500 status and neither the middleware chain
nor the handler runs for that request. -/
theorem proxy_error_collapses_to_500 (e : GoError) (handlerRet : Option GoError) :
    dispatch (some (ProxyReturn.err e)) handlerRet = ⟨500, false, false⟩ := rfl

/-- State of the responseWriter wrapper used for observability
(responseWriter in the nexo package): the recorded status, the
accumulated body size (the int64 size field, always incremented by the
non-negative count the underlying writer reports), and whether a
header has been written.  The embedded underlying http.ResponseWriter
only receives delegated calls and holds no recorded state. -/
structure responseWriter where
  status : Nat
  size : Nat
  wroteHeader : Bool
deriving DecidableEq, Repr

/-- newResponseWriter: the wrapper starts at the default status 200
with nothing written. -/
def newResponseWriter : responseWriter :=
  ⟨200, 0, false⟩

/-- WriteHeader: the first call records the code and marks the header
written; later calls leave the recorded state unchanged (delegation to
the underlying writer is not part of the recorded state). -/
def writeHeaderRW (rw : responseWriter) (code : Nat) : responseWriter :=
  if rw.wroteHeader then rw
  else { rw with status := code, wroteHeader := true }

/-- Write: when no header was written yet this first performs
WriteHeader with 200, then accumulates into size the byte count n that
the underlying writer reports for this call. -/
def writeRW (rw : responseWriter) (n : Nat) : responseWriter :=
  let rw2 := if rw.wroteHeader then rw else writeHeaderRW rw 200
  { rw2 with size := rw2.size + n }

/-- One recorded call on the wrapper during a request. -/
inductive WriterOp where
  | header (code : Nat)
  | write (n : Nat)
deriving DecidableEq, Repr

/-- Applies one call to the wrapper state. -/
def applyOp (rw : responseWriter) : WriterOp → responseWriter
  | WriterOp.header code => writeHeaderRW rw code
  | WriterOp.write n => writeRW rw n

/-- Runs a sequence of calls on the wrapper state. -/
def runOps (rw : responseWriter) (ops : List WriterOp) : responseWriter :=
  ops.foldl applyOp rw

/-- Total byte count the underlying writer reported over a sequence of
calls. -/
def totalBytes (ops : List WriterOp) : Nat :=
  (ops.map (fun op => match op with | WriterOp.header _ => 0 | WriterOp.write n => n)).sum

theorem applyOp_of_wroteHeader (rw : responseWriter) (op : WriterOp)
    (h : rw.wroteHeader = true) :
    (applyOp rw op).status = rw.status ∧ (applyOp rw op).wroteHeader = true := by
  cases op with
  | header code => simp [applyOp, writeHeaderRW, h]
  | write n => simp [applyOp, writeRW, h]

theorem applyOp_size (rw : responseWriter) (op : WriterOp) :
    (applyOp rw op).size = rw.size +
      (match op with | WriterOp.header _ => 0 | WriterOp.write n => n) := by
  cases op with
  | header code =>
      by_cases h : rw.wroteHeader <;> simp [applyOp, writeHeaderRW, h]
  | write n =>
      by_cases h : rw.wroteHeader <;> simp [applyOp, writeRW, writeHeaderRW, h]

/-- C9: once a header write has fixed the recorded status, any further
sequence of WriteHeader and Write calls leaves the recorded status
unchanged, and over every sequence of calls the recorded size grows by
exactly the byte counts of the Write calls. -/
theorem responseWriter_status_fixed_size_accumulates
    (rw : responseWriter) (ops : List WriterOp) :
    (rw.wroteHeader = true →
      (runOps rw ops).status = rw.status ∧ (runOps rw ops).wroteHeader = true) ∧
    (runOps rw ops).size = rw.size + totalBytes ops := by
  induction ops generalizing rw with
  | nil => simp [runOps, totalBytes]
  | cons op rest ih =>
      refine ⟨fun h => ?_, ?_⟩
      · obtain ⟨hs, hw⟩ := applyOp_of_wroteHeader rw op h
        have hrec := (ih (applyOp rw op)).1 hw
        have hstep : runOps rw (op :: rest) = runOps (applyOp rw op) rest := rfl
        rw [hstep]
        exact ⟨hrec.1.trans hs, hrec.2⟩
      · have hsz := (ih (applyOp rw op)).2
        have : runOps rw (op :: rest) = runOps (applyOp rw op) rest := rfl
        rw [this, hsz, applyOp_size]
        unfold totalBytes
        simp [Nat.add_assoc]

/-- Witness for C9: starting from a wrapper whose header was written
with 201, a later WriteHeader 404 and two writes of 7 and 5 bytes
leave the status at 201 and record 12 bytes. -/
theorem responseWriter_status_fixed_size_accumulates_witness :
    (runOps ⟨201, 0, true⟩ [WriterOp.header 404, WriterOp.write 7, WriterOp.write 5]).status
        = 201 ∧
    (runOps ⟨201, 0, true⟩ [WriterOp.header 404, WriterOp.write 7, WriterOp.write 5]).size
        = 12 :=
  ⟨((responseWriter_status_fixed_size_accumulates ⟨201, 0, true⟩
      [WriterOp.header 404, WriterOp.write 7, WriterOp.write 5]).1 rfl).1,
    (responseWriter_status_fixed_size_accumulates ⟨201, 0, true⟩
      [WriterOp.header 404, WriterOp.write 7, WriterOp.write 5]).2⟩

/-- C10: a Write before any WriteHeader records status 200 and marks
the response written, and an untouched wrapper reports status 200 with
Written false, so the recorded status is never zero or undefined at
the public interface. -/
theorem responseWriter_default_and_write_implies_ok :
    newResponseWriter.status = 200 ∧ newResponseWriter.wroteHeader = false ∧
    ∀ (rw : responseWriter) (n : Nat), rw.wroteHeader = false →
      (writeRW rw n).status = 200 ∧ (writeRW rw n).wroteHeader = true := by
  refine ⟨rfl, rfl, fun rw n h => ?_⟩
  simp [writeRW, writeHeaderRW, h]

/-- Witness for C10: writing 4 bytes on a fresh wrapper records status
200 and marks it written. -/
theorem responseWriter_default_and_write_implies_ok_witness :
    (writeRW newResponseWriter 4).status = 200 ∧
    (writeRW newResponseWriter 4).wroteHeader = true :=
  responseWriter_default_and_write_implies_ok.2.2 newResponseWriter 4 rfl

end Nexo
